import Mathlib

/-!
Verification of the `atdis` task-dispatching library.

This file shallowly embeds the parts of the repository that the properties
below are about:

* `src/atdis/src/scheduler.ts` — the `Scheduler` class (queue, `next`,
  `cancel`, `compare`, `_reschedule`) and the internal `ScheduledTask`
  class (state machine, retry logic `_finishError` / `_finishSuccess`,
  `run`, `cancel`, and the lazily-created promise the Promise-prototype
  copy attaches);
* `src/atdis-request/src/throttle-policy.ts` — `AbstractPolicy.canThrottle`
  / `AbstractPolicy.throttle` and `SuspendPolicy.doThrottle` together with
  its `wake` closure;
* the `RequestPool.request` cache-hit decision.

Machine values and task results are modelled as integers; timestamps
(`Date.now()` values) as integers of milliseconds; the score arithmetic of
`Scheduler.compare` (JS number division by 5000) as exact rationals.
-/

namespace Atdis

/-- The `TaskState` enum of `src/atdis/src/task` (string-valued in TS). -/
inductive TaskState
  | QUEUED
  | RUNNING
  | COMPLETED
  | FAILED
  | CANCELLED
deriving DecidableEq, Repr

/-- The uppercase string value of a `TaskState` (the TS enum value). -/
def stateStr : TaskState → String
  | .QUEUED => "QUEUED"
  | .RUNNING => "RUNNING"
  | .COMPLETED => "COMPLETED"
  | .FAILED => "FAILED"
  | .CANCELLED => "CANCELLED"

/-- `this.state.toLowerCase()` as it appears in the error messages of
`run` and `cancel`: the enum has five fixed uppercase values, tabulated
here in lowercase. -/
def stateLower : TaskState → String
  | .QUEUED => "queued"
  | .RUNNING => "running"
  | .COMPLETED => "completed"
  | .FAILED => "failed"
  | .CANCELLED => "cancelled"

/-- Errors a task's future can be rejected with: the cancellation error
`new Error("Event cancelled.")`, or an error value produced by the task's
own executor (modelled by an integer code). -/
inductive TErr
  | cancelled
  | user (code : ℤ)
deriving DecidableEq, Repr

/-- The state of the lazily created `_promise` of a `ScheduledTask`:
pending, resolved with a value, or rejected with an error.  JS promise
semantics: once settled, further `resolve`/`reject` calls are no-ops. -/
inductive PromiseState
  | pending
  | resolved (v : ℤ)
  | rejected (e : TErr)
deriving DecidableEq, Repr

/-- The `_resolve` field of `ScheduledTask`: a NOOP while `_promise` is
`null` (`none` here), otherwise the resolver of the lazily made promise. -/
def resolveP (p : Option PromiseState) (v : ℤ) : Option PromiseState :=
  match p with
  | none => none
  | some .pending => some (.resolved v)
  | some s => some s

/-- The `_reject` field of `ScheduledTask`: a NOOP while `_promise` is
`null`, otherwise the rejecter of the lazily made promise. -/
def rejectP (p : Option PromiseState) (e : TErr) : Option PromiseState :=
  match p with
  | none => none
  | some .pending => some (.rejected e)
  | some s => some s

/-- The mutable state of a `ScheduledTask` (class in
`src/atdis/src/scheduler.ts`): `state`, `_retries`, `attempt`, the
effective `priority` (`options.priority ?? task.priority`, possibly
absent), the `scheduled` timestamp, and the lazily created `_promise`. -/
structure STask where
  state : TaskState
  retries : ℕ
  attempt : ℕ
  priority : Option ℤ
  scheduled : ℤ
  promise : Option PromiseState
deriving DecidableEq, Repr

/-- The `ScheduledTask` constructor: state `QUEUED`, `_retries` from the
options (`?? 0` already resolved by the caller), `attempt = 0`,
`_promise = null`, `scheduled = Date.now()` at construction time. -/
def mkTask (retries : ℕ) (priority : Option ℤ) (scheduled : ℤ) : STask :=
  { state := .QUEUED
    retries := retries
    attempt := 0
    priority := priority
    scheduled := scheduled
    promise := none }

/-- Observable scheduler events.  `_reschedule` emits `schedule`;
`_finishError` emits `failedAttempt` (retry) or `failedTask` (terminal),
carrying the executor's error. -/
inductive Event
  | schedule
  | failedAttempt (e : ℤ)
  | failedTask (e : ℤ)
deriving DecidableEq, Repr

/-- `ScheduledTask._finishSuccess`: set state `COMPLETED` and call
`_resolve(data)` (a NOOP when no promise was ever created). -/
def finishSuccess (v : ℤ) (t : STask) : STask :=
  { t with state := .COMPLETED, promise := resolveP t.promise v }

/-- `ScheduledTask._finishError`: with `_retries > 0`, return to `QUEUED`,
decrement `_retries`, increment `attempt`, reschedule (the push into the
queue is the `schedule` event; the task itself is unchanged by
`_reschedule`) and emit `failedAttempt`; otherwise set `FAILED`, call
`_reject(error)` and emit `failedTask`. -/
def finishError (e : ℤ) (t : STask) : STask × List Event :=
  if t.retries > 0 then
    ({ t with state := .QUEUED, retries := t.retries - 1, attempt := t.attempt + 1 },
      [.schedule, .failedAttempt e])
  else
    ({ t with state := .FAILED, promise := rejectP t.promise (.user e) },
      [.failedTask e])

/-- `ScheduledTask.run` for one attempt whose executor outcome is
`outcome` (`.ok v` = the task function returned / resolved with `v`,
`.error e` = it threw / rejected with `e`).  From any state other than
`QUEUED` it throws the invalid-state error; otherwise it moves to
`RUNNING`, invokes the executor once, and finishes through
`_finishSuccess` / `_finishError`. -/
def runWith (outcome : Except ℤ ℤ) (t : STask) : Except String (STask × List Event) :=
  if t.state ≠ .QUEUED then
    .error ("Attempted to start a " ++ stateLower t.state ++ " task.")
  else
    let t1 := { t with state := TaskState.RUNNING }
    match outcome with
    | .ok v => .ok (finishSuccess v t1, [])
    | .error e => .ok (finishError e t1)

/-- `ScheduledTask.cancel`: from any state other than `QUEUED` it throws
the invalid-state error (before mutating anything); otherwise it sets
`CANCELLED`, notifies the scheduler (`Scheduler.cancel`, a no-op since the
state is already `CANCELLED`) and calls `_reject(new Error("Event
cancelled."))`. -/
def taskCancel (t : STask) : Except String STask :=
  if t.state ≠ .QUEUED then
    .error ("Attempted to cancel a " ++ stateLower t.state ++ " task.")
  else
    .ok { t with state := .CANCELLED, promise := rejectP t.promise .cancelled }

/-- `Scheduler.cancel`: if the task's state is not `CANCELLED`, delegate to
`task.cancel()` (whose invalid-state error propagates); otherwise do
nothing (lazy queue removal happens in `next`). -/
def schedulerCancel (t : STask) : Except String STask :=
  if t.state ≠ .CANCELLED then taskCancel t
  else .ok t

/-- Attaching a continuation through one of the copied Promise-prototype
methods (e.g. `then`): if `_promise` is `null` a fresh *pending* promise is
created, then the method is delegated to the promise.  The second
component says what the continuation observes immediately: `none` if it is
merely queued on a pending promise, `some (.ok v)` / `some (.error e)` if
the promise is already settled and the continuation fires at once. -/
def thenAttach (t : STask) : STask × Option (Except TErr ℤ) :=
  let p := t.promise.getD .pending
  let t1 := { t with promise := some p }
  match p with
  | .pending => (t1, none)
  | .resolved v => (t1, some (.ok v))
  | .rejected e => (t1, some (.error e))

/-- Repeated dispatch of a task whose executor always fails with `e`:
each step is one `run()` call; a step that throws the invalid-state error
(the task is no longer `QUEUED`) leaves the task as it is. -/
def iterFail (e : ℤ) : ℕ → STask → STask
  | 0, t => t
  | n + 1, t =>
    match runWith (.error e) t with
    | .ok (t1, _) => iterFail e n t1
    | .error _ => t

/-- The number of times the always-failing executor is actually invoked
over `n` dispatch attempts (an attempt from a non-`QUEUED` state throws
before reaching the executor and invokes it zero times). -/
def invocations (e : ℤ) : ℕ → STask → ℕ
  | 0, _ => 0
  | n + 1, t =>
    match runWith (.error e) t with
    | .ok (t1, _) => 1 + invocations e n t1
    | .error _ => 0

/-- The score the comparator of `Scheduler.compare` gives a task at time
`now`: `(priority ?? 0) + (now - scheduled) / 5000` (exact rational for
the JS number division).  The `retry` field computed alongside it in the
source is unused by `summary()`. -/
def score (now : ℤ) (t : STask) : ℚ :=
  ((t.priority.getD 0 : ℤ) : ℚ) + (((now - t.scheduled : ℤ) : ℚ) / 5000)

/-- `Scheduler.compare(first, second)`: the difference of the two
summaries. -/
def compareTasks (now : ℤ) (f s : STask) : ℚ :=
  score now f - score now s

/-- `pop()` of the underlying priority queue: removes a comparator-maximal
element (the queue is a max-heap for `Scheduler.compare`; ties are broken
by heap internals, modelled here as leftmost-wins).  Note the comparator
is time-invariant: `compareTasks now f s` does not depend on `now`, so a
single evaluation time is faithful. -/
def popMax (now : ℤ) : List STask → Option (STask × List STask)
  | [] => none
  | t :: ts =>
    match popMax now ts with
    | none => some (t, [])
    | some (m, rest) =>
      if score now m ≤ score now t then some (t, ts) else some (m, t :: rest)

/-- The loop body of `Scheduler.next`, with fuel: pop; return the element
if it is `QUEUED`; otherwise discard it and continue.  `fuel = q.length`
never runs out because each pop removes exactly one element. -/
def nextGo (now : ℤ) : ℕ → List STask → Option STask × List STask
  | 0, q => (none, q)
  | fuel + 1, q =>
    match popMax now q with
    | none => (none, q)
    | some (t, rest) =>
      if t.state = .QUEUED then (some t, rest) else nextGo now fuel rest

/-- `Scheduler.next()`: repeatedly pop the queue, discarding non-`QUEUED`
entries, until a `QUEUED` task is found (returned, removed) or the queue
is empty (`null`). -/
def nextTask (now : ℤ) (q : List STask) : Option STask × List STask :=
  nextGo now q.length q

/-- The scheduler's queue (the only state of `Scheduler` the claims
need). -/
structure SchedulerState where
  queue : List STask
deriving DecidableEq, Repr

/-- `Scheduler._reschedule(task)`: push the task into the queue and emit
the `schedule` event.  The task object itself is not touched. -/
def reschedule (s : SchedulerState) (t : STask) : SchedulerState × List Event :=
  ({ queue := s.queue ++ [t] }, [.schedule])

/-! ### Throttle policy (`src/atdis-request/src/throttle-policy.ts`) -/

/-- The `WorkerState` enum of the atdis `Worker`. -/
inductive WorkerState
  | IDLE
  | RUNNING
  | STALLED
  | STOPPED
deriving DecidableEq, Repr

/-- `Worker.tryStop`: a stopped worker is left alone (returns `false`);
any other worker has `stop()` requested and its loop exits to `STOPPED`. -/
def tryStop : WorkerState → WorkerState
  | .STOPPED => .STOPPED
  | _ => .STOPPED

/-- `Worker.tryStart` as the `wake` closure uses it: a `STOPPED` worker's
run loop is started (first iteration sets `IDLE`); others are left as they
are (`wake` only ever calls it on a `STOPPED` worker). -/
def tryStart : WorkerState → WorkerState
  | .STOPPED => .IDLE
  | w => w

/-- The pool state a `SuspendPolicy` manipulates: the
`pool.metadata.throttle` record (`until`, the one-shot `timer` — stored as
its delay in ms — and the recurring `interval` — stored as its rate), plus
the worker list. -/
structure PoolState where
  untilTime : Option ℤ
  timer : Option ℤ
  interval : Option ℤ
  workers : List WorkerState
deriving DecidableEq, Repr

/-- `AbstractPolicy.canThrottle(throttle, pool)`: `true` when no throttle
is recorded (`until == null`), else when the recorded `until` is strictly
later than the signal's `until`. -/
def canThrottle (activeUntil : Option ℤ) (signalUntil : ℤ) : Bool :=
  match activeUntil with
  | none => true
  | some u => decide (signalUntil < u)

/-- `SuspendPolicy.doThrottle(throttle, pool)`: record the signal's
`until`; clear the previously armed interval and timer; `tryStop` every
worker; arm the one-shot expiry timer with delay `until - now`. -/
def doThrottle (u now : ℤ) (p : PoolState) : PoolState :=
  { untilTime := some u
    timer := some (u - now)
    interval := none
    workers := p.workers.map tryStop }

/-- `AbstractPolicy.throttle(throttle, pool)`: a no-op when the window has
already elapsed or `canThrottle` disallows it; otherwise clamp the window
to `throttleLimit` (when configured and exceeded) and call `doThrottle`. -/
def throttleOp (limit : Option ℤ) (u now : ℤ) (p : PoolState) : PoolState :=
  let ms := u - now
  if ms ≤ 0 ∨ canThrottle p.untilTime u = false then p
  else
    match limit with
    | some l => if ms > l then doThrottle (now + l) now p else doThrottle u now p
    | none => doThrottle u now p

/-- `SuspendPolicy`'s `rate` option: `options?.rate ?? 5000`. -/
def suspendRate (rateOption : Option ℤ) : ℤ :=
  rateOption.getD 5000

/-- The `wake` closure inside `doThrottle`: find the first `STOPPED`
worker and `tryStart` it (second component `true`: the interval is left
armed); when none exists, leave the workers alone and clear the interval
(`false`). -/
def wake : List WorkerState → List WorkerState × Bool
  | [] => ([], false)
  | w :: ws =>
    if w = .STOPPED then (tryStart w :: ws, true)
    else
      let r := wake ws
      (w :: r.1, r.2)

/-- The expiry-timer callback: run `wake()` once (clearing an interval
that is `null` at this point is a no-op), null out the one-shot timer, and
arm the recurring interval at the configured rate. -/
def onExpiry (rate : ℤ) (p : PoolState) : PoolState :=
  { p with workers := (wake p.workers).1, timer := none, interval := some rate }

/-- One tick of the recurring interval: run `wake()`; when it found no
stopped worker it cleared the interval. -/
def onTick (p : PoolState) : PoolState :=
  let r := wake p.workers
  { p with workers := r.1, interval := if r.2 then p.interval else none }

/-- The number of `STOPPED` workers in a pool. -/
def countStopped (ws : List WorkerState) : ℕ :=
  ws.countP (fun w => decide (w = .STOPPED))

/-! ### `RequestPool.request` cache decision (`src/unnamed/part_002`) -/

/-- What `RequestPool.request` does about the cache. -/
inductive ReqResult
  | cachedHandle (s : TaskState)
  | newTask
deriving DecidableEq, Repr

/-- The cache branch of `RequestPool.request`, translated literally:
when the request is cacheable and the key maps to an entry `cached`, the
existing handle is returned exactly when
`!(cached.state === FAILED || cached.state !== CANCELLED)`; in every other
case a fresh task is scheduled. -/
def requestDecision (cacheable : Bool) (cached : Option TaskState) : ReqResult :=
  if cacheable then
    match cached with
    | some s =>
      if !(decide (s = .FAILED) || decide (s ≠ .CANCELLED)) then .cachedHandle s
      else .newTask
    | none => .newTask
  else .newTask

/-! ### Helper lemmas -/

/-- One `run()` of an always-failing task with retries left: requeue,
decrement `_retries`, increment `attempt`, emit `schedule` then
`failedAttempt`. -/
theorem runWith_retry (e : ℤ) (t : STask) (hq : t.state = .QUEUED) (hr : 0 < t.retries) :
    runWith (.error e) t =
      .ok ({ t with state := .QUEUED, retries := t.retries - 1, attempt := t.attempt + 1 },
        [.schedule, .failedAttempt e]) := by
  simp [runWith, hq, finishError, hr]

/-- One `run()` of an always-failing task with no retries left: `FAILED`,
reject, emit `failedTask`. -/
theorem runWith_terminal (e : ℤ) (t : STask) (hq : t.state = .QUEUED) (hr : t.retries = 0) :
    runWith (.error e) t =
      .ok ({ t with state := .FAILED, promise := rejectP t.promise (.user e) },
        [.failedTask e]) := by
  simp [runWith, hq, finishError, hr]

/-- `run()` from a non-`QUEUED` state throws. -/
theorem runWith_invalid (o : Except ℤ ℤ) (t : STask) (hq : t.state ≠ .QUEUED) :
    runWith o t = .error ("Attempted to start a " ++ stateLower t.state ++ " task.") := by
  simp [runWith, hq]

/-- A task that is no longer `QUEUED` is left unchanged by further
dispatch attempts. -/
theorem iterFail_stuck (e : ℤ) (n : ℕ) (t : STask) (hq : t.state ≠ .QUEUED) :
    iterFail e n t = t := by
  cases n with
  | zero => rfl
  | succ n => simp [iterFail, runWith_invalid (.error e) t hq]

/-- Closed form of repeated failing dispatch while retries last. -/
theorem iterFail_go (e : ℤ) (pr : Option ℤ) (sch : ℤ) (P : Option PromiseState) :
    ∀ (i r a : ℕ), i ≤ r →
      iterFail e i ⟨.QUEUED, r, a, pr, sch, P⟩ = ⟨.QUEUED, r - i, a + i, pr, sch, P⟩ := by
  intro i
  induction i with
  | zero => intro r a _; rfl
  | succ i ih =>
    intro r a hir
    have hr : 0 < r := Nat.lt_of_lt_of_le (Nat.succ_pos i) hir
    have hstep := runWith_retry e ⟨.QUEUED, r, a, pr, sch, P⟩ rfl hr
    have : iterFail e (i + 1) ⟨.QUEUED, r, a, pr, sch, P⟩
        = iterFail e i ⟨.QUEUED, r - 1, a + 1, pr, sch, P⟩ := by
      simp [iterFail, hstep]
    rw [this, ih (r - 1) (a + 1) (by omega)]
    have h1 : r - 1 - i = r - (i + 1) := by omega
    have h2 : a + 1 + i = a + (i + 1) := by omega
    rw [h1, h2]

/-- `iterFail` splits over addition of step counts. -/
theorem iterFail_add (e : ℤ) (m n : ℕ) (t : STask) :
    iterFail e (m + n) t = iterFail e n (iterFail e m t) := by
  induction m generalizing t with
  | zero => simp [iterFail]
  | succ m ih =>
    have hmn : m + 1 + n = (m + n) + 1 := by omega
    rw [hmn]
    by_cases hq : t.state = .QUEUED
    · cases ho : runWith (.error e) t with
      | ok p => simp [iterFail, ho, ih]
      | error msg =>
        exfalso
        rcases Nat.eq_zero_or_pos t.retries with h0 | h0
        · rw [runWith_terminal e t hq h0] at ho; exact Except.noConfusion ho
        · rw [runWith_retry e t hq h0] at ho; exact Except.noConfusion ho
    · rw [iterFail_stuck e (m + n + 1) t hq, iterFail_stuck e (m + 1) t hq,
        iterFail_stuck e n t hq]

/-- `invocations` is zero from a non-`QUEUED` state. -/
theorem invocations_stuck (e : ℤ) (n : ℕ) (t : STask) (hq : t.state ≠ .QUEUED) :
    invocations e n t = 0 := by
  cases n with
  | zero => rfl
  | succ n => simp [invocations, runWith_invalid (.error e) t hq]

/-- Closed form of the invocation count: a `QUEUED` task with `r` retries
left is executed `min m (r + 1)` times over `m` dispatch attempts. -/
theorem invocations_closed (e : ℤ) (pr : Option ℤ) (sch : ℤ) (P : Option PromiseState) :
    ∀ (m r a : ℕ), invocations e m ⟨.QUEUED, r, a, pr, sch, P⟩ = min m (r + 1) := by
  intro m
  induction m with
  | zero => intro r a; rfl
  | succ m ih =>
    intro r a
    rcases Nat.eq_zero_or_pos r with h0 | h0
    · subst h0
      have hstep := runWith_terminal e ⟨.QUEUED, 0, a, pr, sch, P⟩ rfl rfl
      have : invocations e (m + 1) ⟨.QUEUED, 0, a, pr, sch, P⟩
          = 1 + invocations e m ⟨.FAILED, 0, a, pr, sch, rejectP P (.user e)⟩ := by
        simp [invocations, hstep]
      rw [this, invocations_stuck e m _ (by simp)]
      omega
    · have hstep := runWith_retry e ⟨.QUEUED, r, a, pr, sch, P⟩ rfl h0
      have : invocations e (m + 1) ⟨.QUEUED, r, a, pr, sch, P⟩
          = 1 + invocations e m ⟨.QUEUED, r - 1, a + 1, pr, sch, P⟩ := by
        simp [invocations, hstep]
      rw [this, ih]
      omega

/-- C1: a task scheduled with `retries = N` whose executor always fails is
executed exactly `N + 1` times under repeated dispatch: each of the first
`N` runs decrements the retry budget, increments `attempt`, returns the
task to `QUEUED` and requeues it emitting `schedule` and `failedAttempt`;
the `(N+1)`-th run moves it to `FAILED`, emits `failedTask`, and — for a
task whose future was materialised by attaching a continuation — rejects
the future with the task's error.  Extra dispatch attempts never invoke
the executor again. -/
theorem retry_budget_exhaustion (N : ℕ) (pr : Option ℤ) (sch : ℤ) (e : ℤ) :
    (∀ i, i ≤ N → iterFail e i (mkTask N pr sch) =
      { state := .QUEUED, retries := N - i, attempt := i, priority := pr,
        scheduled := sch, promise := none }) ∧
    (∀ i, i < N → runWith (.error e) (iterFail e i (mkTask N pr sch)) =
      .ok (iterFail e (i + 1) (mkTask N pr sch), [.schedule, .failedAttempt e])) ∧
    runWith (.error e) (iterFail e N (mkTask N pr sch)) =
      .ok (iterFail e (N + 1) (mkTask N pr sch), [.failedTask e]) ∧
    iterFail e (N + 1) (mkTask N pr sch) =
      { state := .FAILED, retries := 0, attempt := N, priority := pr,
        scheduled := sch, promise := none } ∧
    (∀ k, invocations e (N + 1 + k) (mkTask N pr sch) = N + 1) ∧
    (iterFail e (N + 1) ((thenAttach (mkTask N pr sch)).1)).promise =
      some (.rejected (.user e)) := by
  have hclosed : ∀ (P : Option PromiseState) i, i ≤ N →
      iterFail e i ⟨.QUEUED, N, 0, pr, sch, P⟩ = ⟨.QUEUED, N - i, 0 + i, pr, sch, P⟩ :=
    fun P i hi => iterFail_go e pr sch P i N 0 hi
  have hterm : ∀ (P : Option PromiseState),
      iterFail e (N + 1) ⟨.QUEUED, N, 0, pr, sch, P⟩ =
        ⟨.FAILED, 0, N, pr, sch, rejectP P (.user e)⟩ := by
    intro P
    rw [iterFail_add e N 1, hclosed P N (Nat.le_refl N)]
    have hstep := runWith_terminal e ⟨.QUEUED, N - N, 0 + N, pr, sch, P⟩ rfl
      (show N - N = 0 by omega)
    simp only [iterFail, hstep]
    simp [Nat.sub_self]
  refine ⟨?_, ?_, ?_, ?_, ?_, ?_⟩
  · intro i hi
    have := hclosed none i hi
    simpa [mkTask] using this
  · intro i hi
    have h1 := hclosed none i (Nat.le_of_lt hi)
    have h2 := hclosed none (i + 1) hi
    have hstep := runWith_retry e ⟨.QUEUED, N - i, 0 + i, pr, sch, none⟩ rfl
      (show 0 < N - i by omega)
    simp only [mkTask] at h1 h2 ⊢
    rw [h1, h2, hstep]
    have hni : N - i - 1 = N - (i + 1) := by omega
    have hai : 0 + i + 1 = 0 + (i + 1) := by omega
    rw [hni, hai]
  · have h1 := hclosed none N (Nat.le_refl N)
    have h2 := hterm none
    have hstep := runWith_terminal e ⟨.QUEUED, N - N, 0 + N, pr, sch, none⟩ rfl
      (show N - N = 0 by omega)
    simp only [mkTask] at h1 h2 ⊢
    rw [h1, h2, hstep]
    simp [rejectP, Nat.sub_self]
  · have := hterm none
    simpa [mkTask, rejectP] using this
  · intro k
    have := invocations_closed e pr sch none (N + 1 + k) N 0
    simp only [mkTask]
    rw [this]
    omega
  · have hatt : (thenAttach (mkTask N pr sch)).1 =
        ⟨.QUEUED, N, 0, pr, sch, some .pending⟩ := by
      simp [thenAttach, mkTask, Option.getD]
    rw [hatt, hterm (some .pending)]
    rfl

/-- Witness for `retry_budget_exhaustion` at `N = 2`, `e = 7`, after one
dispatch. -/
theorem retry_budget_exhaustion_witness :
    iterFail 7 1 (mkTask 2 none 0) =
      { state := .QUEUED, retries := 1, attempt := 1, priority := none,
        scheduled := 0, promise := none } :=
  (retry_budget_exhaustion 2 none 0 7).1 1 (by decide)

/-- The quantity `_retries + attempt` of a scheduled task. -/
def sumRA (t : STask) : ℕ :=
  t.retries + t.attempt

/-- C10: `_retries + attempt` equals the configured retry budget after
construction and is preserved by every operation — `_finishError` (the
only path touching either field decrements one and increments the other
together), `_finishSuccess`, `cancel`, any single `run()` attempt, and
attaching a continuation. -/
theorem retries_attempt_invariant :
    (∀ (N : ℕ) (pr : Option ℤ) (sch : ℤ), sumRA (mkTask N pr sch) = N) ∧
    (∀ (e : ℤ) (t : STask), sumRA (finishError e t).1 = sumRA t) ∧
    (∀ (v : ℤ) (t : STask), sumRA (finishSuccess v t) = sumRA t) ∧
    (∀ (t t1 : STask), taskCancel t = .ok t1 → sumRA t1 = sumRA t) ∧
    (∀ (o : Except ℤ ℤ) (t t1 : STask) (evs : List Event),
      runWith o t = .ok (t1, evs) → sumRA t1 = sumRA t) ∧
    (∀ t : STask, sumRA (thenAttach t).1 = sumRA t) := by
  have hfe : ∀ (e : ℤ) (t : STask), sumRA (finishError e t).1 = sumRA t := by
    intro e t
    by_cases h : 0 < t.retries
    · simp only [finishError, if_pos h, sumRA]
      omega
    · simp only [finishError, if_neg h, sumRA]
  refine ⟨?_, hfe, ?_, ?_, ?_, ?_⟩
  · intro N pr sch; rfl
  · intro v t; rfl
  · intro t t1 h
    by_cases hq : t.state = .QUEUED
    · simp only [taskCancel, hq, ne_eq, not_true_eq_false, if_false,
        Except.ok.injEq] at h
      rw [← h]
      rfl
    · simp [taskCancel, hq] at h
  · intro o t t1 evs h
    by_cases hq : t.state = .QUEUED
    · cases o with
      | ok v =>
        simp only [runWith, hq, ne_eq, not_true_eq_false, if_false,
          Except.ok.injEq, Prod.mk.injEq] at h
        rw [← h.1]
        rfl
      | error e =>
        simp only [runWith, hq, ne_eq, not_true_eq_false, if_false,
          Except.ok.injEq] at h
        have h1 : t1 = (finishError e { t with state := TaskState.RUNNING }).1 :=
          (congrArg Prod.fst h).symm
        rw [h1, hfe]
        rfl
    · simp [runWith, hq] at h
  · intro t
    cases hp : t.promise.getD PromiseState.pending <;>
      simp [thenAttach, hp, sumRA]

/-- Witness for `retries_attempt_invariant`: cancelling a fresh task with
3 retries preserves the sum. -/
theorem retries_attempt_invariant_witness :
    sumRA ({ state := .CANCELLED, retries := 3, attempt := 0,
             priority := none, scheduled := 0, promise := none } : STask) =
      sumRA (mkTask 3 none 0) :=
  retries_attempt_invariant.2.2.2.1 (mkTask 3 none 0)
    ({ state := .CANCELLED, retries := 3, attempt := 0,
       priority := none, scheduled := 0, promise := none } : STask) rfl

/-- C2: evaluation at the failing input.  A task that settles with no
continuation attached (`_promise` still `null`, so `_resolve` is a NOOP and
the outcome of `run()` is dropped) gives a later `then` a freshly created
promise that stays pending forever: the continuation never fires, against
the claim that it fires immediately with the stored outcome.  By contrast,
when a continuation was attached before the task settled, a continuation
attached afterwards does fire immediately with the outcome. -/
theorem then_after_settle_never_fires :
    runWith (.ok 42) (mkTask 0 none 0) =
      .ok ({ state := .COMPLETED, retries := 0, attempt := 0,
             priority := none, scheduled := 0, promise := none }, []) ∧
    (thenAttach ({ state := .COMPLETED, retries := 0, attempt := 0,
                   priority := none, scheduled := 0, promise := none } : STask)).2 =
      none ∧
    (thenAttach (finishSuccess 42
        { (thenAttach (mkTask 0 none 0)).1 with state := .RUNNING })).2 =
      some (.ok 42) := by
  refine ⟨rfl, rfl, rfl⟩

/-- C3 counterexample: `Scheduler.cancel` on a `RUNNING` task is not a
no-op that returns normally — it delegates to `task.cancel()`, which
throws the invalid-state error. -/
theorem scheduler_cancel_running_raises :
    schedulerCancel ({ state := .RUNNING, retries := 0, attempt := 0,
                       priority := none, scheduled := 0, promise := none } : STask) =
      .error "Attempted to cancel a running task." := by
  rfl

/-- C3 (amended): for a non-`QUEUED` task, `Scheduler.cancel` is a no-op
only when the task is already `CANCELLED`; for `RUNNING`, `COMPLETED` or
`FAILED` tasks it propagates the invalid-state error thrown by the task's
own `cancel`, and either way the task is not mutated. -/
theorem scheduler_cancel_non_queued (t : STask) (hq : t.state ≠ .QUEUED) :
    (t.state = .CANCELLED → schedulerCancel t = .ok t) ∧
    (t.state ≠ .CANCELLED →
      schedulerCancel t =
        .error ("Attempted to cancel a " ++ stateLower t.state ++ " task.")) := by
  constructor
  · intro hc
    simp [schedulerCancel, hc]
  · intro hc
    simp [schedulerCancel, hc, taskCancel, hq]

/-- Witness for `scheduler_cancel_non_queued` at a `CANCELLED` task. -/
theorem scheduler_cancel_non_queued_witness :
    schedulerCancel ({ state := .CANCELLED, retries := 0, attempt := 0,
                       priority := none, scheduled := 0, promise := none } : STask) =
      .ok ({ state := .CANCELLED, retries := 0, attempt := 0,
             priority := none, scheduled := 0, promise := none } : STask) :=
  (scheduler_cancel_non_queued
    ({ state := .CANCELLED, retries := 0, attempt := 0,
       priority := none, scheduled := 0, promise := none } : STask)
    (by decide)).1 rfl

/-- C4 counterexample: a task created at time 100 that fails a retryable
attempt is requeued by `_reschedule` with its `scheduled` timestamp still
100 — `_reschedule` does not set it to the current time (200 here); the
field is `readonly`, assigned only in the constructor. -/
theorem reschedule_does_not_update_scheduledAt :
    runWith (.error 9) (mkTask 1 none 100) =
      .ok ({ state := .QUEUED, retries := 0, attempt := 1,
             priority := none, scheduled := 100, promise := none },
        [.schedule, .failedAttempt 9]) ∧
    (reschedule ⟨[]⟩ ({ state := .QUEUED, retries := 0, attempt := 1,
                        priority := none, scheduled := 100, promise := none } : STask)).1.queue =
      [({ state := .QUEUED, retries := 0, attempt := 1,
          priority := none, scheduled := 100, promise := none } : STask)] ∧
    ¬ (({ state := .QUEUED, retries := 0, attempt := 1,
          priority := none, scheduled := 100, promise := none } : STask).scheduled = 200) := by
  refine ⟨rfl, rfl, by decide⟩

/-- C4 (amended): `Scheduler._reschedule` reinserts the task into the
queue unchanged and emits the `schedule` event; the task's `scheduled`
timestamp is set only at construction, and a retryable failure requeues
the task with `scheduled` untouched. -/
theorem reschedule_spec (s : SchedulerState) (t : STask) :
    (reschedule s t).1.queue = s.queue ++ [t] ∧
    (reschedule s t).2 = [.schedule] ∧
    (∀ (e : ℤ) (t1 : STask) (evs : List Event),
      runWith (.error e) t = .ok (t1, evs) → t1.scheduled = t.scheduled) := by
  refine ⟨rfl, rfl, ?_⟩
  intro e t1 evs h
  by_cases hq : t.state = .QUEUED
  · rcases Nat.eq_zero_or_pos t.retries with h0 | h0
    · rw [runWith_terminal e t hq h0] at h
      simp only [Except.ok.injEq, Prod.mk.injEq] at h
      rw [← h.1]
    · rw [runWith_retry e t hq h0] at h
      simp only [Except.ok.injEq, Prod.mk.injEq] at h
      rw [← h.1]
  · rw [runWith_invalid (.error e) t hq] at h
    exact Except.noConfusion h

/-- Witness for `reschedule_spec`: the requeued task of the failing run at
retries 1 keeps `scheduled = 100`. -/
theorem reschedule_spec_witness :
    ({ state := .QUEUED, retries := 0, attempt := 1, priority := none,
       scheduled := 100, promise := none } : STask).scheduled =
      (mkTask 1 none 100).scheduled :=
  (reschedule_spec ⟨[]⟩ (mkTask 1 none 100)).2.2 9
    ({ state := .QUEUED, retries := 0, attempt := 1, priority := none,
       scheduled := 100, promise := none } : STask)
    [.schedule, .failedAttempt 9] rfl

/-- C5: evaluation at the failing input.  The cache-hit test of
`RequestPool.request`, `!(state === FAILED || state !== CANCELLED)`, is
satisfied only by `CANCELLED` entries: a cacheable request whose key maps
to a live `QUEUED`, `RUNNING` or `COMPLETED` entry schedules new work
instead of returning the existing handle, and a `CANCELLED` entry is the
one that gets returned. -/
theorem request_cache_hit_inverted :
    requestDecision true (some .QUEUED) = .newTask ∧
    requestDecision true (some .RUNNING) = .newTask ∧
    requestDecision true (some .COMPLETED) = .newTask ∧
    requestDecision true (some .FAILED) = .newTask ∧
    requestDecision true (some .CANCELLED) = .cachedHandle .CANCELLED := by
  refine ⟨rfl, rfl, rfl, rfl, rfl⟩

/-- C6: `canThrottle(signal, pool)` is true exactly when no throttle is
recorded (`until == null`) or the recorded window's `until` is strictly
later than the signal's; hence applying an allowed signal under an active
window always records a strictly earlier `until` — the window is
tightened, never extended. -/
theorem can_throttle_iff :
    (∀ (a : Option ℤ) (s : ℤ),
      canThrottle a s = true ↔ (a = none ∨ ∃ u, a = some u ∧ s < u)) ∧
    (∀ (u s now : ℤ) (p : PoolState), p.untilTime = some u →
      canThrottle p.untilTime s = true →
      (doThrottle s now p).untilTime = some s ∧ s < u) := by
  constructor
  · intro a s
    cases a with
    | none => simp [canThrottle]
    | some u => simp [canThrottle]
  · intro u s now p hp hc
    rw [hp] at hc
    simp only [canThrottle, decide_eq_true_eq] at hc
    exact ⟨rfl, hc⟩

/-- Witness for `can_throttle_iff`: a signal ending at 5 applied under an
active window ending at 10. -/
theorem can_throttle_iff_witness :
    (doThrottle 5 0 ⟨some 10, none, none, []⟩).untilTime = some 5 ∧ (5 : ℤ) < 10 :=
  can_throttle_iff.2 10 5 0 ⟨some 10, none, none, []⟩ rfl (by decide)

/-- C7: `Scheduler.compare` is positive exactly when the first task's
score `(priority ?? 0) + (now - scheduled) / 5000` exceeds the second's;
and for two queued tasks scheduled at the same instant with priorities 5
and 0, `next()` returns the priority-5 task first whichever order they
occupy in the queue. -/
theorem compare_positive_iff_higher_score :
    (∀ (now : ℤ) (f s : STask),
      0 < compareTasks now f s ↔ score now s < score now f) ∧
    (∀ (sch now : ℤ),
      nextTask now [mkTask 0 (some 0) sch, mkTask 0 (some 5) sch] =
        (some (mkTask 0 (some 5) sch), [mkTask 0 (some 0) sch]) ∧
      nextTask now [mkTask 0 (some 5) sch, mkTask 0 (some 0) sch] =
        (some (mkTask 0 (some 5) sch), [mkTask 0 (some 0) sch])) := by
  constructor
  · intro now f s
    unfold compareTasks
    exact sub_pos
  · intro sch now
    have hba : score now (mkTask 0 (some 0) sch) ≤ score now (mkTask 0 (some 5) sch) := by
      simp only [score, mkTask, Option.getD]
      push_cast
      linarith
    have hab : ¬ score now (mkTask 0 (some 5) sch) ≤ score now (mkTask 0 (some 0) sch) := by
      simp only [score, mkTask, Option.getD]
      push_cast
      intro h
      linarith
    have hpop1 : popMax now [mkTask 0 (some 0) sch, mkTask 0 (some 5) sch] =
        some (mkTask 0 (some 5) sch, [mkTask 0 (some 0) sch]) := by
      simp only [popMax]
      rw [if_neg hab]
    have hpop2 : popMax now [mkTask 0 (some 5) sch, mkTask 0 (some 0) sch] =
        some (mkTask 0 (some 5) sch, [mkTask 0 (some 0) sch]) := by
      simp only [popMax]
      rw [if_pos hba]
    constructor
    · show nextGo now (1 + 1) _ = _
      rw [nextGo, hpop1]
      simp [mkTask]
    · show nextGo now (1 + 1) _ = _
      rw [nextGo, hpop2]
      simp [mkTask]

/-- `popMax` returns `none` exactly on the empty queue. -/
theorem popMax_eq_none (now : ℤ) (q : List STask) : popMax now q = none ↔ q = [] := by
  cases q with
  | nil => simp [popMax]
  | cons t ts =>
    simp only [popMax]
    cases h : popMax now ts with
    | none => simp
    | some p =>
      obtain ⟨m, rest⟩ := p
      by_cases hc : score now m ≤ score now t <;> simp [hc]

/-- Popping the queue removes exactly the returned element: the result
together with the remainder is a permutation of the queue. -/
theorem popMax_perm (now : ℤ) :
    ∀ (q : List STask) (t : STask) (rest : List STask),
      popMax now q = some (t, rest) → (t :: rest).Perm q := by
  intro q
  induction q with
  | nil => intro t rest h; simp [popMax] at h
  | cons x ts ih =>
    intro t rest h
    simp only [popMax] at h
    cases h' : popMax now ts with
    | none =>
      rw [h'] at h
      dsimp only at h
      have hts : ts = [] := (popMax_eq_none now ts).mp h'
      simp only [Option.some.injEq, Prod.mk.injEq] at h
      obtain ⟨h1, h2⟩ := h
      subst h1; subst h2; subst hts
      exact List.Perm.refl _
    | some p =>
      obtain ⟨m, r⟩ := p
      rw [h'] at h
      dsimp only at h
      by_cases hc : score now m ≤ score now x
      · rw [if_pos hc] at h
        simp only [Option.some.injEq, Prod.mk.injEq] at h
        obtain ⟨h1, h2⟩ := h
        subst h1; subst h2
        exact List.Perm.refl _
      · rw [if_neg hc] at h
        simp only [Option.some.injEq, Prod.mk.injEq] at h
        obtain ⟨h1, h2⟩ := h
        subst h1; subst h2
        exact (List.Perm.swap x m r).trans ((ih m r h').cons x)

/-- The `next()` loop body, settled for any sufficient fuel: it yields
`none` exactly when no `QUEUED` task is present, and anything it yields is
a `QUEUED` member of the queue. -/
theorem nextGo_spec (now : ℤ) :
    ∀ (fuel : ℕ) (q : List STask), q.length ≤ fuel →
      ((nextGo now fuel q).1 = none ↔ ∀ t ∈ q, t.state ≠ .QUEUED) ∧
      (∀ t, (nextGo now fuel q).1 = some t → t.state = .QUEUED ∧ t ∈ q) := by
  intro fuel
  induction fuel with
  | zero =>
    intro q hq
    have hnil : q = [] := List.length_eq_zero.mp (Nat.le_zero.mp hq)
    subst hnil
    refine ⟨by simp [nextGo], ?_⟩
    intro t h
    simp [nextGo] at h
  | succ fuel ih =>
    intro q hq
    cases hpop : popMax now q with
    | none =>
      have hnil : q = [] := (popMax_eq_none now q).mp hpop
      subst hnil
      refine ⟨by simp [nextGo, popMax], ?_⟩
      intro t h
      simp [nextGo, popMax] at h
    | some p =>
      obtain ⟨t0, rest⟩ := p
      have hperm := popMax_perm now q t0 rest hpop
      have hlen : rest.length ≤ fuel := by
        have := hperm.length_eq
        simp only [List.length_cons] at this
        omega
      have hmem : ∀ x, x ∈ q ↔ (x = t0 ∨ x ∈ rest) := by
        intro x
        rw [← hperm.mem_iff]
        simp
      by_cases hst : t0.state = .QUEUED
      · have hres : nextGo now (fuel + 1) q = (some t0, rest) := by
          rw [nextGo, hpop]
          simp [hst]
        rw [hres]
        constructor
        · constructor
          · intro h; simp at h
          · intro hall
            exact absurd hst (hall t0 ((hmem t0).mpr (Or.inl rfl)))
        · intro t h
          simp only [Option.some.injEq] at h
          subst h
          exact ⟨hst, (hmem t0).mpr (Or.inl rfl)⟩
      · have hres : nextGo now (fuel + 1) q = nextGo now fuel rest := by
          rw [nextGo, hpop]
          simp [hst]
        rw [hres]
        obtain ⟨ih1, ih2⟩ := ih rest hlen
        constructor
        · rw [ih1]
          constructor
          · intro hall x hx
            rcases (hmem x).mp hx with h | h
            · rw [h]; exact hst
            · exact hall x h
          · intro hall x hx
            exact hall x ((hmem x).mpr (Or.inr hx))
        · intro t h
          obtain ⟨h1, h2⟩ := ih2 t h
          exact ⟨h1, (hmem t).mpr (Or.inr h2)⟩

/-- C8: `next()` returns `null` exactly when no `QUEUED` task exists (in
particular on the empty queue), and any task it returns is a `QUEUED`
member of the queue — popped non-`QUEUED` (e.g. `CANCELLED`) entries are
discarded, never returned. -/
theorem next_returns_only_queued (now : ℤ) (q : List STask) :
    ((nextTask now q).1 = none ↔ ∀ t ∈ q, t.state ≠ .QUEUED) ∧
    (∀ t, (nextTask now q).1 = some t → t.state = .QUEUED ∧ t ∈ q) :=
  nextGo_spec now q.length q (Nat.le_refl _)

/-- Witness for `next_returns_only_queued`: a queue holding a cancelled
entry and a queued one; `next()` skips the cancelled entry. -/
theorem next_returns_only_queued_witness :
    (mkTask 1 none 0).state = .QUEUED ∧
      mkTask 1 none 0 ∈
        [({ state := .CANCELLED, retries := 0, attempt := 0, priority := none,
            scheduled := 0, promise := none } : STask), mkTask 1 none 0] :=
  (next_returns_only_queued 0
    [({ state := .CANCELLED, retries := 0, attempt := 0, priority := none,
        scheduled := 0, promise := none } : STask), mkTask 1 none 0]).2
    (mkTask 1 none 0) (by simp [nextTask, nextGo, popMax, score, mkTask])

/-- Structure of one `wake()` call: either no worker is `STOPPED` (workers
untouched, interval cleared), or the worker list splits around its first
`STOPPED` worker, which is the only one started. -/
theorem wake_structure (ws : List WorkerState) :
    (countStopped ws = 0 ∧ wake ws = (ws, false)) ∨
    (∃ l r, ws = l ++ .STOPPED :: r ∧ (∀ w ∈ l, w ≠ .STOPPED) ∧
      wake ws = (l ++ .IDLE :: r, true)) := by
  induction ws with
  | nil => exact Or.inl ⟨rfl, rfl⟩
  | cons w ws ih =>
    by_cases hw : w = .STOPPED
    · refine Or.inr ⟨[], ws, ?_, by simp, ?_⟩
      · rw [hw]; rfl
      · subst hw
        simp [wake, tryStart]
    · rcases ih with ⟨h0, hwk⟩ | ⟨l, r, hws, hl, hwk⟩
      · refine Or.inl ⟨?_, ?_⟩
        · have hcw : countStopped (w :: ws) = countStopped ws :=
            List.countP_cons_of_neg _ _ (by simpa using hw)
          rw [hcw]
          exact h0
        · simp [wake, hw, hwk]
      · refine Or.inr ⟨w :: l, r, ?_, ?_, ?_⟩
        · rw [hws]; rfl
        · intro x hx
          rcases List.mem_cons.mp hx with h | h
          · rw [h]; exact hw
          · exact hl x h
        · simp [wake, hw, hwk]

/-- Each `wake()` reduces the number of `STOPPED` workers by exactly
one (truncated at zero). -/
theorem wake_count (ws : List WorkerState) :
    countStopped (wake ws).1 = countStopped ws - 1 := by
  rcases wake_structure ws with ⟨h0, hwk⟩ | ⟨l, r, hws, hl, hwk⟩
  · rw [hwk, h0]
  · rw [hwk, hws]
    have hl0 : countStopped l = 0 := by
      simp only [countStopped, List.countP_eq_zero]
      intro w hw
      simpa using hl w hw
    simp [countStopped, List.countP_append, List.countP_cons, hl0]

/-- `wake()` keeps the interval armed exactly when a `STOPPED` worker was
present. -/
theorem wake_flag (ws : List WorkerState) :
    (wake ws).2 = true ↔ 0 < countStopped ws := by
  rcases wake_structure ws with ⟨h0, hwk⟩ | ⟨l, r, hws, hl, hwk⟩
  · rw [hwk, h0]
    simp
  · rw [hwk, hws]
    simp [countStopped, List.countP_append, List.countP_cons]

/-- C9: applying a throttle signal through `SuspendPolicy.doThrottle`
records the new `until`, discards any previously armed timer and interval
(arming the one-shot expiry timer at `until - now`), and stops every
worker of the pool; `throttle` invokes it whenever the window has not
elapsed and `canThrottle` allows it (no clamping configured).  At expiry
the first `wake()` runs and the recurring interval is armed at the
configured rate (`5000` ms by default); each subsequent tick starts
exactly one currently `STOPPED` worker — the first one, all workers before
it being non-stopped — and once no `STOPPED` worker remains a tick leaves
the workers untouched and clears the interval. -/
theorem suspend_policy_throttles_and_staggers_wakeup :
    (∀ (u now : ℤ) (p : PoolState),
      (doThrottle u now p).untilTime = some u ∧
      (doThrottle u now p).interval = none ∧
      (doThrottle u now p).timer = some (u - now) ∧
      ∀ w ∈ (doThrottle u now p).workers, w = .STOPPED) ∧
    (∀ (u now : ℤ) (p : PoolState),
      0 < u - now → canThrottle p.untilTime u = true →
      throttleOp none u now p = doThrottle u now p) ∧
    suspendRate none = 5000 ∧
    (∀ (rt : ℤ) (p : PoolState),
      (onExpiry rt p).timer = none ∧ (onExpiry rt p).interval = some rt ∧
      (onExpiry rt p).workers = (wake p.workers).1) ∧
    (∀ ws : List WorkerState, countStopped (wake ws).1 = countStopped ws - 1) ∧
    (∀ ws : List WorkerState,
      (countStopped ws = 0 ∧ wake ws = (ws, false)) ∨
      (∃ l r, ws = l ++ .STOPPED :: r ∧ (∀ w ∈ l, w ≠ .STOPPED) ∧
        wake ws = (l ++ .IDLE :: r, true))) ∧
    (∀ p : PoolState, 0 < countStopped p.workers →
      onTick p = { p with workers := (wake p.workers).1 }) ∧
    (∀ p : PoolState, countStopped p.workers = 0 →
      onTick p = { p with interval := none }) := by
  refine ⟨?_, ?_, rfl, ?_, wake_count, wake_structure, ?_, ?_⟩
  · intro u now p
    refine ⟨rfl, rfl, rfl, ?_⟩
    intro w hw
    simp only [doThrottle, List.mem_map] at hw
    obtain ⟨x, _, hx⟩ := hw
    rw [← hx]
    cases x <;> rfl
  · intro u now p hms hc
    have hng : ¬ (u - now ≤ 0) := by omega
    simp [throttleOp, hc, hng]
  · intro rt p
    exact ⟨rfl, rfl, rfl⟩
  · intro p hpos
    have hfl : (wake p.workers).2 = true := (wake_flag p.workers).mpr hpos
    simp [onTick, hfl]
  · intro p h0
    rcases wake_structure p.workers with ⟨_, hwk⟩ | ⟨l, r, hws, _, _⟩
    · simp [onTick, hwk]
    · rw [hws] at h0
      simp [countStopped, List.countP_append, List.countP_cons] at h0

/-- Witness for `suspend_policy_throttles_and_staggers_wakeup`: an
unthrottled single-idle-worker pool receives a signal ending at 10 at time
0. -/
theorem suspend_policy_witness :
    throttleOp none 10 0 ⟨none, none, none, [WorkerState.IDLE]⟩ =
      doThrottle 10 0 ⟨none, none, none, [WorkerState.IDLE]⟩ :=
  suspend_policy_throttles_and_staggers_wakeup.2.1 10 0
    ⟨none, none, none, [WorkerState.IDLE]⟩ (by decide) rfl

end Atdis
